import Mathlib

/-!
Verification of the `config` package (a Go configuration-loading library).

The definitions below are a shallow embedding of `src/config.go` (and the
helpers in `src/helpers.go`): Go strings become Lean `String`s, `fmt.Errorf`
messages become the literal formatted strings, fallible functions return
`Except String _`, and the package-level mutable state (the `globalConfig`
singleton, the afero filesystem and the active `slog` handler level) is
threaded explicitly through a `World` record.
-/

/-! ## String helpers modelling Go string primitives -/

/-- Go `len(s)` on a string counts bytes; `String.utf8ByteSize` is the
byte length of the UTF-8 encoding, which matches it exactly. -/
def golen (s : String) : Nat := s.utf8ByteSize

/-- Model of Go `strings.ToUpper` (character-wise upper-casing; identical to
Go on ASCII data, which is all the recognized comparisons ever involve). -/
def goToUpper (s : String) : String := String.mk (s.data.map Char.toUpper)

/-- Model of the `%q` verb of `fmt` for strings that need no escaping
(every string compared against in this development is plain ASCII without
quotes or control characters, where `%q` just wraps in double quotes). -/
def goQuote (s : String) : String := "\"" ++ s ++ "\""

/-- Character-list prefix test (Go `strings.HasPrefix` on the rune level). -/
def isPre : List Char → List Char → Bool
  | [], _ => true
  | _ :: _, [] => false
  | a :: p, b :: s => a = b && isPre p s

/-- Character-list substring test (Go `strings.Contains` on the rune level). -/
def isSub (pat s : List Char) : Bool :=
  match s with
  | [] => pat.isEmpty
  | _ :: t => isPre pat s || isSub pat t

/-- Whether the string `s` starts with `pat` (Go `strings.HasPrefix s pat`). -/
def strStarts (s pat : String) : Bool := isPre pat.data s.data

/-- Whether `pat` occurs inside `s` (Go `strings.Contains s pat`). -/
def strContains (s pat : String) : Bool := isSub pat.data s.data

theorem sdata_append (a b : String) : (a ++ b).data = a.data ++ b.data := by
  cases a; cases b; rfl

theorem isPre_refl (p : List Char) : isPre p p = true := by
  induction p with
  | nil => rfl
  | cons a p ih => simp [isPre, ih]

theorem isPre_append_right (p l r : List Char) (h : isPre p l = true) :
    isPre p (l ++ r) = true := by
  induction p generalizing l with
  | nil => rfl
  | cons a p ih =>
    cases l with
    | nil => exact absurd h (by simp [isPre])
    | cons b l =>
      simp only [isPre, Bool.and_eq_true, decide_eq_true_eq] at h
      simp only [List.cons_append, isPre, Bool.and_eq_true, decide_eq_true_eq]
      exact ⟨h.1, ih l h.2⟩

theorem isPre_self_append (p r : List Char) : isPre p (p ++ r) = true :=
  isPre_append_right p p r (isPre_refl p)

/-- When the candidate prefix is no longer than `l`, appending more text
after `l` cannot change whether it is a prefix. -/
theorem isPre_append_of_le (p l r : List Char) (h : p.length ≤ l.length) :
    isPre p (l ++ r) = isPre p l := by
  induction p generalizing l with
  | nil => rfl
  | cons a p ih =>
    cases l with
    | nil => exact absurd h (by simp)
    | cons b l =>
      simp only [List.cons_append, isPre]
      simp only [List.length_cons, Nat.succ_le_succ_iff] at h
      rw [List.append_eq, ih l h]

theorem isSub_of_isPre (p s : List Char) (h : isPre p s = true) :
    isSub p s = true := by
  cases s with
  | nil =>
    cases p with
    | nil => rfl
    | cons a p => exact absurd h (by simp [isPre])
  | cons b t => simp [isSub, h]

theorem isSub_cons (p : List Char) (c : Char) (t : List Char)
    (h : isSub p t = true) : isSub p (c :: t) = true := by
  simp [isSub, h]

theorem isSub_append_left (p l s : List Char) (h : isSub p s = true) :
    isSub p (l ++ s) = true := by
  induction l with
  | nil => exact h
  | cons c l ih => exact isSub_cons p c (l ++ s) ih

/-- A pattern occurs in any list of the shape `l ++ pat ++ r`. -/
theorem isSub_sandwich (p l r : List Char) : isSub p (l ++ (p ++ r)) = true :=
  isSub_append_left p l (p ++ r) (isSub_of_isPre p (p ++ r) (isPre_self_append p r))

/-! ## Data model (`src/config.go`) -/

/-- The four base `log/slog` levels (`slog.LevelDebug` .. `slog.LevelError`). -/
inductive SlogLevel where
  | debug
  | info
  | warn
  | error
deriving DecidableEq

/-- Go `slog.Level.String()` for the four base levels. -/
def levelString : SlogLevel → String
  | .debug => "DEBUG"
  | .info => "INFO"
  | .warn => "WARN"
  | .error => "ERROR"

/-- `Logger` defines the configuration for structured logging. -/
structure Logger where
  logLevel : String
deriving DecidableEq

/-- A closed universe standing for the Go types that callers store in the
`Service any` field (the service payload types exercised by the repository
plus two builtin types). Go's open universe of types is modelled by this
fixed collection; every theorem quantifies over it. -/
inductive GoType where
  | customServicePtr
  | anotherServicePtr
  | goString
  | goInt
deriving DecidableEq

/-- `customService` from the test suite (two string fields). -/
structure CustomService where
  username : String
  password : String
deriving DecidableEq

/-- `anotherService` from the test suite. -/
structure AnotherService where
  port : Int
  host : String
deriving DecidableEq

/-- The Go value set of each modelled type; pointer types are `Option`
(with `none` for the nil pointer). -/
def GoType.interp : GoType → Type
  | .customServicePtr => Option CustomService
  | .anotherServicePtr => Option AnotherService
  | .goString => String
  | .goInt => Int

/-- The Go zero value of each modelled type (`var zero T`). -/
def GoType.zero : (t : GoType) → t.interp
  | .customServicePtr => none
  | .anotherServicePtr => none
  | .goString => ""
  | .goInt => (0 : Int)

/-- What `fmt`'s `%T` verb prints for each modelled type. -/
def GoType.typeName : GoType → String
  | .customServicePtr => "*config.customService"
  | .anotherServicePtr => "*config.anotherService"
  | .goString => "string"
  | .goInt => "int"

/-- A non-nil value of interface type `any`: a dynamic type together with a
value of that type. -/
structure ServiceVal where
  ty : GoType
  val : ty.interp

/-- `Config` represents the global application configuration. The unexported
`viper` engine handle is not part of the observable state and is omitted;
the `Service any` field is an optional dynamic value (`none` is the nil
interface). The Go field `envPrefix` is called `envPref` here. -/
structure Config where
  configFile : String
  initFlag : Bool
  appID : String
  appSecret : String
  logger : Logger
  service : Option ServiceVal
  envPref : String

/-! ## Defaulting and validation (`defaultValues`, config.go lines 221-257) -/

/-- The message of `fmt.Errorf("invalid AppID: must be at least 8 characters
long, got %d characters", len(c.AppID))`. -/
def appIDErrMsg (n : Nat) : String :=
  "invalid AppID: must be at least 8 characters long, got " ++ toString n
    ++ " characters"

/-- The message of `fmt.Errorf("invalid AppSecret: must be at least 12
characters long, got %d characters", len(c.AppSecret))`. -/
def appSecretErrMsg (n : Nat) : String :=
  "invalid AppSecret: must be at least 12 characters long, got " ++ toString n
    ++ " characters"

/-- The message of `fmt.Errorf("unknown log level: %q (valid values: DEBUG,
INFO, WARN, ERROR)", c.Logger.LogLevel)`. -/
def unknownLevelMsg (lvl : String) : String :=
  "unknown log level: " ++ goQuote lvl ++ " (valid values: DEBUG, INFO, WARN, ERROR)"

/-- First block of `defaultValues`: generate an `AppID` when empty, reject a
non-empty one shorter than 8 bytes. `genID` stands for the value produced by
`uuid.NewString()`. -/
def checkAppID (genID : String) (c : Config) : Except String Config :=
  if c.appID = "" then Except.ok { c with appID := genID }
  else if golen c.appID < 8 then Except.error (appIDErrMsg (golen c.appID))
  else Except.ok c

/-- Second block of `defaultValues`: generate an `AppSecret` when empty,
reject a non-empty one shorter than 12 bytes. -/
def checkAppSecret (genSecret : String) (c : Config) : Except String Config :=
  if c.appSecret = "" then Except.ok { c with appSecret := genSecret }
  else if golen c.appSecret < 12 then Except.error (appSecretErrMsg (golen c.appSecret))
  else Except.ok c

/-- The `switch strings.ToUpper(c.Logger.LogLevel)` of `defaultValues`.
`slog.LevelDebug.String()` and friends equal `"DEBUG"`, `"INFO"`, `"WARN"`,
`"ERROR"`, so each Go `case` lists the literal and the (identical, except
for `WARNING`) level string; the duplicates collapse here. -/
def parseLogLevel (s : String) : Option SlogLevel :=
  let u := goToUpper s
  if u = "DEBUG" ∨ u = levelString .debug then some .debug
  else if u = "INFO" ∨ u = levelString .info then some .info
  else if u = "WARN" ∨ u = "WARNING" ∨ u = levelString .warn then some .warn
  else if u = "ERROR" ∨ u = levelString .error then some .error
  else none

/-- `(*Config).defaultValues` (config.go lines 221-257). On success it
returns the updated config together with the `slog` level installed in the
default handler. The two `uuid.NewString()` call sites are modelled by the
parameters `genID` and `genSecret`. Note that the log-level switch only
configures the handler: it never writes a normalized level back into
`c.Logger.LogLevel`. -/
def defaultValues (genID genSecret : String) (c : Config) :
    Except String (Config × SlogLevel) :=
  match checkAppID genID c with
  | .error e => .error e
  | .ok c1 =>
    match checkAppSecret genSecret c1 with
    | .error e => .error e
    | .ok c2 =>
      match parseLogLevel c2.logger.logLevel with
      | some lvl => .ok (c2, lvl)
      | none => .error (unknownLevelMsg c2.logger.logLevel)

/-! ## Accessors (`GetServiceConfig`, `GetSecureCopy`) -/

/-- `GetServiceConfig[T]()` (config.go lines 126-133): type-assert the stored
`Service` payload to the requested type `B`; on mismatch return the zero
value of `B` and the `fmt.Errorf("invalid service config type: expected %T,
got %T", zero, globalConfig.Service)` message (`%T` on a nil interface
prints `<nil>`). -/
def GetServiceConfig (B : GoType) (stored : Option ServiceVal) :
    B.interp × Option String :=
  match stored with
  | none =>
    (B.zero, some ("invalid service config type: expected " ++ B.typeName
      ++ ", got <nil>"))
  | some s =>
    if h : s.ty = B then (h ▸ s.val, none)
    else
      (B.zero, some ("invalid service config type: expected " ++ B.typeName
        ++ ", got " ++ s.ty.typeName))

/-- `GetSecureCopy` (config.go lines 171-183): copy the global config and
mask a non-empty `AppSecret` with the literal `"********"`. -/
def GetSecureCopy (g : Config) : Config :=
  let configClone := g
  if configClone.appSecret ≠ "" then { configClone with appSecret := "********" }
  else configClone

/-- The same call viewed as an operation on the singleton state: it returns
the masked copy and leaves the global (second component) untouched, since
`configClone := *globalConfig` copies the struct by value. -/
def getSecureCopyOp (g : Config) : Config × Config := (GetSecureCopy g, g)

/-! ## File pipeline (`getConfigFile`, `readInConfig`, `InitServiceConfig`) -/

/-- Helper for `filepathExt`: walk the path characters from the end
(`acc` holds the characters already passed, in order) and stop at the last
`.` of the final path element, or at a path separator. -/
def extFromRev : List Char → List Char → List Char
  | [], _ => []
  | c :: rest, acc =>
    if c = '/' then []
    else if c = '.' then c :: acc
    else extFromRev rest (c :: acc)

/-- Go `filepath.Ext`: the suffix beginning at the final dot in the final
slash-separated element of the path; empty when there is no dot. -/
def filepathExt (p : String) : String := String.mk (extFromRev p.data.reverse [])

/-- Go `strings.TrimPrefix(s, ".")`: drop one leading dot when present. -/
def trimDot (s : String) : String :=
  match s.data with
  | '.' :: rest => String.mk rest
  | _ => s

/-- The `contains` helper of `src/helpers.go` (linear scan for an equal
element). -/
def containsStr : List String → String → Bool
  | [], _ => false
  | v :: rest, item => if v = item then true else containsStr rest item

/-- The extension actually examined by `getConfigFile` for a config-file
path. -/
def extOf (path : String) : String := trimDot (filepathExt path)

/-- `(*Config).getConfigFile` (config.go lines 259-266): returns the file
name and its extension, or fails when the extension is not `json`, `yaml`
or `yml`. -/
def getConfigFile (c : Config) : Except String (String × String) :=
  let ext := extOf c.configFile
  if !(containsStr ["json", "yaml", "yml"] ext) then
    Except.error ("unsupported config file extension: " ++ ext)
  else Except.ok (c.configFile, ext)

/-- The flat document persisted to (and parsed from) a config file:
`appID`, `appSecret`, `logger.logLevel` and the opaque `service` payload.
Fields tagged `yaml:"-"` (`ConfigFile`, `Init`) and unexported fields are
not persisted. -/
structure PersistedDoc where
  appID : String
  appSecret : String
  logLevel : String
  service : Option ServiceVal

/-- Modelled from the spec: `yaml.Encoder.Encode(globalConfig)` serializes
exactly the persisted layout, "a flat document with `appID`, `appSecret`,
`logger.logLevel`, and `service`". The byte-level YAML encoding itself lives
in the vendored `gopkg.in/yaml.v3` dependency and is abstracted to a
caller-supplied injection `PersistedDoc → β`. -/
def marshalConfig (c : Config) : PersistedDoc :=
  { appID := c.appID
    appSecret := c.appSecret
    logLevel := c.logger.logLevel
    service := c.service }

/-- Modelled from the spec: `viper.ReadConfig` + `viper.Unmarshal` (the
bundled internal viper fork, which is not under `src/`) set the
`mapstructure`-tagged fields of the singleton from the parsed document;
environment overrides are modelled as absent (no relevant variables set). -/
def unmarshalInto (d : PersistedDoc) (c : Config) : Config :=
  { c with
    appID := d.appID
    appSecret := d.appSecret
    logger := { logLevel := d.logLevel }
    service := d.service }

/-- The message `afero.ReadFile` produces for a missing file (the exact text
is supplied by the operating system; no claim depends on it). -/
def readErrMsg (filename : String) : String :=
  "open " ++ filename ++ ": no such file or directory"

/-- `(*Config).readInConfig` (config.go lines 268-301). The file system is a
partial map from (absolute) path to raw content of type `β`; `parse` stands
for the vendored viper `ReadConfig`+`Unmarshal` pipeline for a given
extension (its two error wraps, `reading config content:` and
`unmarshalling config:`, are collapsed into the first). -/
def readInConfig {β : Type} (parse : String → β → Except String PersistedDoc)
    (fs : String → Option β) (c : Config) : Except String Config :=
  match getConfigFile c with
  | .error e => .error e
  | .ok fe =>
    match fs fe.1 with
    | none => .error (readErrMsg fe.1)
    | some content =>
      match parse fe.2 content with
      | .error e => .error ("reading config content: " ++ e)
      | .ok d => .ok (unmarshalInto d c)

/-- The package-level mutable state: the `globalConfig` singleton, the
(afero) file system and the level of the active `slog` handler. -/
structure World (β : Type) where
  global : Config
  fs : String → Option β
  slogLevel : SlogLevel

/-- The singleton as built by the package `init` function: the log level is
`slog.LevelDebug.String() = "DEBUG"`, every other persisted field is the Go
zero value, and the default handler is at debug level. -/
def initialConfig : Config :=
  { configFile := ""
    initFlag := false
    appID := ""
    appSecret := ""
    logger := { logLevel := levelString .debug }
    service := none
    envPref := "" }

/-- `writeToFile` (config.go lines 303-317): serialize the singleton as YAML
and store it at the given path. `os.Create` resolves a relative path against
the working directory, i.e. at the same absolute path that `filepath.Abs`
yields, modelled by `absFn`; creation failures (unwritable path) are outside
the model, as every claim concerns writable paths. -/
def writeToFile {β : Type} (serialize : PersistedDoc → β) (absFn : String → String)
    (g : Config) (fs : String → Option β) (cfgFile : String) : String → Option β :=
  fun p => if p = absFn cfgFile then some (serialize (marshalConfig g)) else fs p

/-- `defaultConfig` (config.go lines 333-338): run `defaultValues` on the
singleton, then write it to the file. -/
def defaultConfigOp {β : Type} (serialize : PersistedDoc → β) (absFn : String → String)
    (genID genSecret : String) (configPath : String) (w : World β) :
    Except String (World β) :=
  match defaultValues genID genSecret w.global with
  | .error e => .error e
  | .ok (g1, lvl) =>
    .ok { global := g1
          fs := writeToFile serialize absFn g1 w.fs configPath
          slogLevel := lvl }

/-- `DefaultConfig[T]` (config.go lines 212-219): set `Init` and store the
zero value of `T` in `Service`, then run `defaultConfig`. The
`uuid.NewString()` results are `uuids 0` and `uuids 1`. -/
def DefaultConfigOp {β : Type} (serialize : PersistedDoc → β) (absFn : String → String)
    (uuids : Nat → String) (zeroTy : GoType) (configPath : String) (w : World β) :
    Except String (World β) :=
  let g := { w.global with initFlag := true, service := some ⟨zeroTy, zeroTy.zero⟩ }
  defaultConfigOp serialize absFn (uuids 0) (uuids 1) configPath { w with global := g }

/-- `InitServiceConfig` (config.go lines 78-113): resolve the path, store it
and the service template in the singleton, create a default file when none
exists (wrapping failures as `writing default config:`), read the file back
(wrap: `reading config:`) and apply `defaultValues` (wrap: `setting default
values:`). `filepath.Abs` is modelled by `absFn` (its own failure mode, an
unreadable working directory, is outside the model); the fresh
`uuid.NewString()` results consumed by the two possible `defaultValues`
runs are `uuids 0`/`uuids 1` (creation) and `uuids 2`/`uuids 3` (final). -/
def InitServiceConfigOp {β : Type} (parse : String → β → Except String PersistedDoc)
    (serialize : PersistedDoc → β) (absFn : String → String) (uuids : Nat → String)
    (v : Option ServiceVal) (configPath : String) (w : World β) :
    Except String (World β) :=
  let configFile := absFn configPath
  let w0 : World β :=
    { w with global := { w.global with configFile := configFile, service := v } }
  let created : Except String (World β) :=
    if (w0.fs configFile).isSome then .ok w0
    else
      match defaultConfigOp serialize absFn (uuids 0) (uuids 1) configPath
          { w0 with global := { w0.global with initFlag := true } } with
      | .error e => .error ("writing default config: " ++ e)
      | .ok w1 => .ok { w1 with global := { w1.global with initFlag := false } }
  match created with
  | .error e => .error e
  | .ok w1 =>
    match readInConfig parse w1.fs w1.global with
    | .error e => .error ("reading config: " ++ e)
    | .ok g3 =>
      match defaultValues (uuids 2) (uuids 3) g3 with
      | .error e => .error ("setting default values: " ++ e)
      | .ok (g4, lvl) => .ok { global := g4, fs := w1.fs, slogLevel := lvl }

/-! ## Structural lemmas about the validation pipeline -/

theorem parseLogLevel_isSome_iff (s : String) :
    (parseLogLevel s).isSome = true ↔
      goToUpper s ∈ (["DEBUG", "INFO", "WARN", "WARNING", "ERROR"] : List String) := by
  simp only [parseLogLevel, levelString]
  split_ifs <;> simp_all <;> tauto

theorem parseLogLevel_none_iff (s : String) :
    parseLogLevel s = none ↔
      goToUpper s ∉ (["DEBUG", "INFO", "WARN", "WARNING", "ERROR"] : List String) := by
  rw [← parseLogLevel_isSome_iff]
  cases parseLogLevel s <;> simp

/-- Closed form of `defaultValues`: the three validation blocks in source
order, with the two generated-identifier substitutions applied on success. -/
theorem defaultValues_eq (g1 g2 : String) (c : Config) :
    defaultValues g1 g2 c =
      if c.appID ≠ "" ∧ golen c.appID < 8 then
        Except.error (appIDErrMsg (golen c.appID))
      else if c.appSecret ≠ "" ∧ golen c.appSecret < 12 then
        Except.error (appSecretErrMsg (golen c.appSecret))
      else
        match parseLogLevel c.logger.logLevel with
        | some lvl =>
          Except.ok ({ c with
            appID := if c.appID = "" then g1 else c.appID,
            appSecret := if c.appSecret = "" then g2 else c.appSecret }, lvl)
        | none => Except.error (unknownLevelMsg c.logger.logLevel) := by
  by_cases hA : c.appID = "" <;> by_cases hS : c.appSecret = "" <;>
    by_cases hAl : golen c.appID < 8 <;> by_cases hSl : golen c.appSecret < 12 <;>
      simp [defaultValues, checkAppID, checkAppSecret, hA, hS, hAl, hSl]

/-! ## Lemmas about the shapes of the formatted error messages -/

theorem strStarts_append_left (a b pat : String) (h : strStarts a pat = true) :
    strStarts (a ++ b) pat = true := by
  unfold strStarts at h ⊢
  rw [sdata_append]
  exact isPre_append_right _ _ _ h

theorem strStarts_append_eq (a b pat : String)
    (h : pat.data.length ≤ a.data.length) :
    strStarts (a ++ b) pat = strStarts a pat := by
  unfold strStarts
  rw [sdata_append]
  exact isPre_append_of_le _ _ _ h

/-- Whether a message of the shape `lit ++ mid ++ suf` starts with a pattern
no longer than `lit` is decided by `lit` alone. -/
theorem strStarts_concat₂ (lit mid suf pat : String)
    (h : pat.data.length ≤ lit.data.length) :
    strStarts (lit ++ mid ++ suf) pat = strStarts lit pat := by
  have h2 : pat.data.length ≤ (lit ++ mid).data.length := by
    rw [sdata_append, List.length_append]
    exact Nat.le_trans h (Nat.le_add_right _ _)
  rw [strStarts_append_eq _ _ _ h2, strStarts_append_eq _ _ _ h]

theorem strContains_of_starts (s pat : String) (h : strStarts s pat = true) :
    strContains s pat = true :=
  isSub_of_isPre _ _ h

theorem strContains_middle (l pat r : String) :
    strContains (l ++ pat ++ r) pat = true := by
  unfold strContains
  rw [sdata_append, sdata_append, List.append_assoc]
  exact isSub_sandwich _ _ _

theorem strContains_suffix_pat (l pat : String) :
    strContains (l ++ pat) pat = true := by
  unfold strContains
  rw [sdata_append]
  have h := isSub_sandwich pat.data l.data []
  simpa using h

theorem appIDErrMsg_starts (n : Nat) :
    strStarts (appIDErrMsg n) "invalid AppID" = true := by
  unfold appIDErrMsg
  rw [strStarts_concat₂ _ _ _ _ (by decide)]
  decide

theorem appSecretErrMsg_starts (n : Nat) :
    strStarts (appSecretErrMsg n) "invalid AppSecret" = true := by
  unfold appSecretErrMsg
  rw [strStarts_concat₂ _ _ _ _ (by decide)]
  decide

theorem appSecretErrMsg_not_appID (n : Nat) :
    strStarts (appSecretErrMsg n) "invalid AppID" = false := by
  unfold appSecretErrMsg
  rw [strStarts_concat₂ _ _ _ _ (by decide)]
  decide

theorem appIDErrMsg_not_appSecret (n : Nat) :
    strStarts (appIDErrMsg n) "invalid AppSecret" = false := by
  unfold appIDErrMsg
  rw [strStarts_concat₂ _ _ _ _ (by decide)]
  decide

theorem unknownLevelMsg_not_appID (lvl : String) :
    strStarts (unknownLevelMsg lvl) "invalid AppID" = false := by
  unfold unknownLevelMsg
  rw [strStarts_concat₂ _ _ _ _ (by decide)]
  decide

theorem unknownLevelMsg_not_appSecret (lvl : String) :
    strStarts (unknownLevelMsg lvl) "invalid AppSecret" = false := by
  unfold unknownLevelMsg
  rw [strStarts_concat₂ _ _ _ _ (by decide)]
  decide

theorem unknownLevelMsg_contains (lvl : String) :
    strContains (unknownLevelMsg lvl) "unknown log level" = true := by
  unfold unknownLevelMsg
  apply strContains_of_starts
  rw [strStarts_concat₂ _ _ _ _ (by decide)]
  decide

/-! ## Shared concrete sample values for witnesses and counterexamples -/

/-- A canonical-form UUID string (36 bytes), as `uuid.NewString` returns. -/
def uuidA : String := "123e4567-e89b-12d3-a456-426614174000"

/-- A config whose `AppID`/`AppSecret` pass validation, with a chosen
log-level string. -/
def sampleCfg (lvl : String) : Config :=
  { initialConfig with
    appID := "validappid12"
    appSecret := "validappsecret12"
    logger := { logLevel := lvl } }

theorem golen_36_ne_empty (s : String) (h : golen s = 36) : s ≠ "" := by
  intro he
  rw [he] at h
  exact absurd h (by decide)

theorem mem_levels_ne_empty (s : String)
    (h : goToUpper s ∈ (["DEBUG", "INFO", "WARN", "WARNING", "ERROR"] : List String)) :
    s ≠ "" := by
  intro he
  rw [he] at h
  exact absurd h (by decide)

/-- On success, `checkAppID` leaves the other fields alone and either fills
`AppID` with the generated value or keeps a non-empty one. -/
theorem checkAppID_ok (genID : String) (c c1 : Config)
    (h : checkAppID genID c = Except.ok c1) :
    c1.appSecret = c.appSecret ∧ c1.logger = c.logger ∧
      (c1.appID = genID ∨ c1.appID ≠ "") := by
  unfold checkAppID at h
  split_ifs at h with h1 h2
  · injection h with h
    subst h
    exact ⟨rfl, rfl, Or.inl rfl⟩
  · injection h with h
    subst h
    exact ⟨rfl, rfl, Or.inr h1⟩

/-- On success, `checkAppSecret` leaves the other fields alone and either
fills `AppSecret` with the generated value or keeps a non-empty one. -/
theorem checkAppSecret_ok (genSecret : String) (c c1 : Config)
    (h : checkAppSecret genSecret c = Except.ok c1) :
    c1.appID = c.appID ∧ c1.logger = c.logger ∧
      (c1.appSecret = genSecret ∨ c1.appSecret ≠ "") := by
  unfold checkAppSecret at h
  split_ifs at h with h1 h2
  · injection h with h
    subst h
    exact ⟨rfl, rfl, Or.inl rfl⟩
  · injection h with h
    subst h
    exact ⟨rfl, rfl, Or.inr h1⟩

/-! ## Claim C1 -/

/-- Claim C1: whenever `defaultValues` succeeds (with the `uuid.NewString`
results being 36-byte UUID strings), the resulting `AppID`, `AppSecret` and
`Logger.LogLevel` are non-empty and the upper-cased log level is one of
DEBUG, INFO, WARN, WARNING, ERROR. -/
theorem defaultValues_success_invariant (genID genSecret : String)
    (c c2 : Config) (lvl : SlogLevel)
    (hID : golen genID = 36) (hSec : golen genSecret = 36)
    (h : defaultValues genID genSecret c = Except.ok (c2, lvl)) :
    c2.appID ≠ "" ∧ c2.appSecret ≠ "" ∧ c2.logger.logLevel ≠ "" ∧
      goToUpper c2.logger.logLevel ∈
        (["DEBUG", "INFO", "WARN", "WARNING", "ERROR"] : List String) := by
  unfold defaultValues at h
  rcases hA : checkAppID genID c with e | c1
  · rw [hA] at h
    exact Except.noConfusion h
  rw [hA] at h
  dsimp only at h
  rcases hS : checkAppSecret genSecret c1 with e | c3
  · rw [hS] at h
    exact Except.noConfusion h
  rw [hS] at h
  dsimp only at h
  rcases hp : parseLogLevel c3.logger.logLevel with _ | lvl2
  · rw [hp] at h
    exact Except.noConfusion h
  rw [hp] at h
  simp only [Except.ok.injEq, Prod.mk.injEq] at h
  obtain ⟨hc, _⟩ := h
  subst hc
  obtain ⟨hA1, hA2, hA3⟩ := checkAppID_ok genID c c1 hA
  obtain ⟨hS1, hS2, hS3⟩ := checkAppSecret_ok genSecret c1 c3 hS
  have hmem : goToUpper c3.logger.logLevel ∈
      (["DEBUG", "INFO", "WARN", "WARNING", "ERROR"] : List String) := by
    rw [← parseLogLevel_isSome_iff, hp]
    rfl
  refine ⟨?_, ?_, mem_levels_ne_empty _ hmem, hmem⟩
  · rw [hS1]
    rcases hA3 with h3 | h3
    · rw [h3]
      exact golen_36_ne_empty _ hID
    · exact h3
  · rcases hS3 with h3 | h3
    · rw [h3]
      exact golen_36_ne_empty _ hSec
    · exact h3

/-- Witness for C1 at a concrete run of `defaultValues`. -/
theorem defaultValues_success_invariant_witness :
    golen uuidA = 36 ∧
    (({ initialConfig with appID := uuidA, appSecret := uuidA } : Config).appID ≠ "" ∧
      ({ initialConfig with appID := uuidA, appSecret := uuidA } : Config).appSecret ≠ "" ∧
      ({ initialConfig with appID := uuidA, appSecret := uuidA } : Config).logger.logLevel ≠ "" ∧
      goToUpper ({ initialConfig with appID := uuidA, appSecret := uuidA } : Config).logger.logLevel ∈
        (["DEBUG", "INFO", "WARN", "WARNING", "ERROR"] : List String)) :=
  ⟨by decide,
    defaultValues_success_invariant uuidA uuidA initialConfig _ .debug
      (by decide) (by decide) rfl⟩

/-! ## Claim C2 -/

/-- Counterexample to C2 as stated: on the valid lower-case level string
`"debug"` the pipeline succeeds, but the stored `Logger.LogLevel` keeps the
original spelling `"debug"` instead of holding the normalized `"DEBUG"` (the
switch in `defaultValues` never writes the normalized form back). -/
theorem defaultValues_level_not_normalized_cex :
    defaultValues uuidA uuidA (sampleCfg "debug") =
        Except.ok (sampleCfg "debug", SlogLevel.debug) ∧
      (sampleCfg "debug").logger.logLevel = "debug" ∧
      (sampleCfg "debug").logger.logLevel ≠ "DEBUG" :=
  ⟨rfl, rfl, by decide⟩

/-- Claim C2 (amended): for a config whose `AppID`/`AppSecret` pass their
checks and whose upper-cased level is recognized, `defaultValues` succeeds,
the stored `Logger.LogLevel` field is returned unchanged (in its original
letter case), and the `slog` handler is set to the normalized level the
switch selects for it. -/
theorem defaultValues_level_behavior (genID genSecret : String) (c : Config)
    (hID : c.appID = "" ∨ 8 ≤ golen c.appID)
    (hSec : c.appSecret = "" ∨ 12 ≤ golen c.appSecret)
    (hmem : goToUpper c.logger.logLevel ∈
      (["DEBUG", "INFO", "WARN", "WARNING", "ERROR"] : List String)) :
    ∃ c2 lvl, defaultValues genID genSecret c = Except.ok (c2, lvl) ∧
      c2.logger.logLevel = c.logger.logLevel ∧
      parseLogLevel c2.logger.logLevel = some lvl := by
  have h1 : ¬(c.appID ≠ "" ∧ golen c.appID < 8) := by
    rcases hID with h | h
    · simp [h]
    · rintro ⟨-, hlt⟩
      omega
  have h2 : ¬(c.appSecret ≠ "" ∧ golen c.appSecret < 12) := by
    rcases hSec with h | h
    · simp [h]
    · rintro ⟨-, hlt⟩
      omega
  have hsome : (parseLogLevel c.logger.logLevel).isSome = true :=
    (parseLogLevel_isSome_iff _).mpr hmem
  obtain ⟨lvl, hlvl⟩ := Option.isSome_iff_exists.mp hsome
  rw [defaultValues_eq, if_neg h1, if_neg h2, hlvl]
  exact ⟨_, lvl, rfl, rfl, hlvl⟩

/-- Witness for the amended C2 at the level string `"warning"`. -/
theorem defaultValues_level_behavior_witness :
    ((sampleCfg "warning").appID = "" ∨ 8 ≤ golen (sampleCfg "warning").appID) ∧
    ((sampleCfg "warning").appSecret = "" ∨ 12 ≤ golen (sampleCfg "warning").appSecret) ∧
    goToUpper (sampleCfg "warning").logger.logLevel ∈
      (["DEBUG", "INFO", "WARN", "WARNING", "ERROR"] : List String) ∧
    (∃ c2 lvl, defaultValues uuidA uuidA (sampleCfg "warning") = Except.ok (c2, lvl) ∧
      c2.logger.logLevel = (sampleCfg "warning").logger.logLevel ∧
      parseLogLevel c2.logger.logLevel = some lvl) :=
  ⟨by decide, by decide, by decide,
    defaultValues_level_behavior uuidA uuidA (sampleCfg "warning")
      (by decide) (by decide) (by decide)⟩

/-! ## Claim C3 -/

/-- Counterexample to C3 as stated: a config whose log level is invalid but
whose `AppID` is also invalid fails with the `invalid AppID` message, which
does not contain `"unknown log level"` — the AppID check runs first. -/
theorem defaultValues_unknown_level_preempted_cex :
    defaultValues uuidA uuidA
        { initialConfig with
          appID := "ab"
          appSecret := "validappsecret12"
          logger := { logLevel := "bogus" } } =
      Except.error (appIDErrMsg 2) ∧
    goToUpper "bogus" ∉ (["DEBUG", "INFO", "WARN", "WARNING", "ERROR"] : List String) ∧
    strContains (appIDErrMsg 2) "unknown log level" = false :=
  ⟨rfl, by decide, by decide⟩

/-- Claim C3 (amended): provided `AppID` and `AppSecret` pass their own
checks (empty or meeting the minimum lengths), `defaultValues` fails with an
error containing `"unknown log level"` exactly when the upper-cased
`Logger.LogLevel` is outside the recognized set, and succeeds otherwise;
when an earlier field check fails, that validation error is returned
instead. -/
theorem defaultValues_unknown_level_iff (genID genSecret : String) (c : Config)
    (hID : c.appID = "" ∨ 8 ≤ golen c.appID)
    (hSec : c.appSecret = "" ∨ 12 ≤ golen c.appSecret) :
    ((∃ e, defaultValues genID genSecret c = Except.error e ∧
        strContains e "unknown log level" = true) ↔
      goToUpper c.logger.logLevel ∉
        (["DEBUG", "INFO", "WARN", "WARNING", "ERROR"] : List String)) ∧
    (goToUpper c.logger.logLevel ∈
        (["DEBUG", "INFO", "WARN", "WARNING", "ERROR"] : List String) →
      ∃ r, defaultValues genID genSecret c = Except.ok r) := by
  have h1 : ¬(c.appID ≠ "" ∧ golen c.appID < 8) := by
    rcases hID with h | h
    · simp [h]
    · rintro ⟨-, hlt⟩
      omega
  have h2 : ¬(c.appSecret ≠ "" ∧ golen c.appSecret < 12) := by
    rcases hSec with h | h
    · simp [h]
    · rintro ⟨-, hlt⟩
      omega
  rw [defaultValues_eq, if_neg h1, if_neg h2]
  constructor
  · constructor
    · rintro ⟨e, he, -⟩
      rcases hp : parseLogLevel c.logger.logLevel with _ | lvl
      · exact (parseLogLevel_none_iff _).mp hp
      · rw [hp] at he
        exact Except.noConfusion he
    · intro hnot
      rw [(parseLogLevel_none_iff _).mpr hnot]
      exact ⟨_, rfl, unknownLevelMsg_contains _⟩
  · intro hmem
    obtain ⟨lvl, hlvl⟩ :=
      Option.isSome_iff_exists.mp ((parseLogLevel_isSome_iff _).mpr hmem)
    rw [hlvl]
    exact ⟨_, rfl⟩

/-- Witness for the amended C3 at a concrete invalid level. -/
theorem defaultValues_unknown_level_iff_witness :
    ∃ e, defaultValues uuidA uuidA (sampleCfg "bogus") = Except.error e ∧
      strContains e "unknown log level" = true :=
  ((defaultValues_unknown_level_iff uuidA uuidA (sampleCfg "bogus")
      (by decide) (by decide)).1).mpr (by decide)

/-! ## Claim C4 -/

/-- Counterexample to C4 as stated: with an empty `AppID` and the log-level
string `"invalid AppID"`, `defaultValues` fails with the unknown-log-level
message, which quotes the level and therefore contains the text
`"invalid AppID"` even though `AppID` is empty — refuting the only-if
direction of the claimed containment equivalence. -/
theorem defaultValues_appID_contains_cex :
    defaultValues uuidA uuidA
        { initialConfig with
          appID := ""
          appSecret := "validappsecret12"
          logger := { logLevel := "invalid AppID" } } =
      Except.error (unknownLevelMsg "invalid AppID") ∧
    strContains (unknownLevelMsg "invalid AppID") "invalid AppID" = true :=
  ⟨rfl, by decide⟩

/-- Claim C4 (amended): `defaultValues` fails with the AppID validation
error — an error message starting with `"invalid AppID"` — if and only if
`AppID` is non-empty and shorter than 8 bytes; an empty `AppID` is replaced
by the generated UUID string, and one of length at least 8 passes the check
unchanged. (The containment form of the claim fails because the
unknown-log-level message quotes an arbitrary level string.) -/
theorem defaultValues_appID_spec (genID genSecret : String) (c : Config) :
    ((∃ e, defaultValues genID genSecret c = Except.error e ∧
        strStarts e "invalid AppID" = true) ↔
      (c.appID ≠ "" ∧ golen c.appID < 8)) ∧
    (c.appID = "" → checkAppID genID c = Except.ok { c with appID := genID }) ∧
    (8 ≤ golen c.appID → checkAppID genID c = Except.ok c) := by
  refine ⟨⟨?_, ?_⟩, ?_, ?_⟩
  · rintro ⟨e, he, hs⟩
    by_cases h1 : c.appID ≠ "" ∧ golen c.appID < 8
    · exact h1
    exfalso
    rw [defaultValues_eq, if_neg h1] at he
    by_cases h2 : c.appSecret ≠ "" ∧ golen c.appSecret < 12
    · rw [if_pos h2] at he
      injection he with he
      subst he
      rw [appSecretErrMsg_not_appID] at hs
      exact Bool.noConfusion hs
    rw [if_neg h2] at he
    rcases hp : parseLogLevel c.logger.logLevel with _ | lvl <;> rw [hp] at he
    · injection he with he
      subst he
      rw [unknownLevelMsg_not_appID] at hs
      exact Bool.noConfusion hs
    · exact Except.noConfusion he
  · intro h1
    rw [defaultValues_eq, if_pos h1]
    exact ⟨_, rfl, appIDErrMsg_starts _⟩
  · intro h
    unfold checkAppID
    rw [if_pos h]
  · intro h
    have hne : c.appID ≠ "" := by
      intro he
      rw [he] at h
      exact absurd h (by decide)
    unfold checkAppID
    rw [if_neg hne, if_neg (by omega)]

/-- Witness for the amended C4: a short non-empty `AppID` produces the
AppID validation error. -/
theorem defaultValues_appID_spec_witness :
    ∃ e, defaultValues uuidA uuidA { initialConfig with
        appID := "ab"
        appSecret := "validappsecret12"
        logger := { logLevel := "DEBUG" } } = Except.error e ∧
      strStarts e "invalid AppID" = true :=
  ((defaultValues_appID_spec uuidA uuidA _).1).mpr (by decide)

/-! ## Claim C5 -/

/-- Counterexample to C5 as stated, at two concrete inputs: (a) with a short
`AppID` and a short `AppSecret` the AppID check fails first, so no error
containing `"invalid AppSecret"` is returned although `AppSecret` is
non-empty and shorter than 12; (b) with an empty `AppSecret` and the
log-level string `"invalid AppSecret"` the unknown-log-level message quotes
the level and so does contain `"invalid AppSecret"`. Both directions of the
claimed equivalence fail. -/
theorem defaultValues_appSecret_cex :
    (defaultValues uuidA uuidA
        { initialConfig with
          appID := "ab"
          appSecret := "x"
          logger := { logLevel := "DEBUG" } } =
        Except.error (appIDErrMsg 2) ∧
      strContains (appIDErrMsg 2) "invalid AppSecret" = false) ∧
    (defaultValues uuidA uuidA
        { initialConfig with
          appID := "validappid12"
          appSecret := ""
          logger := { logLevel := "invalid AppSecret" } } =
        Except.error (unknownLevelMsg "invalid AppSecret") ∧
      strContains (unknownLevelMsg "invalid AppSecret") "invalid AppSecret" = true) :=
  ⟨⟨rfl, by decide⟩, ⟨rfl, by decide⟩⟩

/-- Claim C5 (amended): provided the `AppID` check passes (empty or at
least 8 bytes), `defaultValues` fails with the AppSecret validation error —
an error message starting with `"invalid AppSecret"` — if and only if
`AppSecret` is non-empty and shorter than 12 bytes; an empty `AppSecret` is
replaced by the generated UUID string (whose canonical form has 36 ≥ 12
bytes) without ever entering the validation branch. -/
theorem defaultValues_appSecret_spec (genID genSecret : String) (c : Config)
    (hID : c.appID = "" ∨ 8 ≤ golen c.appID) :
    ((∃ e, defaultValues genID genSecret c = Except.error e ∧
        strStarts e "invalid AppSecret" = true) ↔
      (c.appSecret ≠ "" ∧ golen c.appSecret < 12)) ∧
    (c.appSecret = "" →
      checkAppSecret genSecret c = Except.ok { c with appSecret := genSecret }) ∧
    (golen genSecret = 36 → 12 ≤ golen genSecret) := by
  have h1 : ¬(c.appID ≠ "" ∧ golen c.appID < 8) := by
    rcases hID with h | h
    · simp [h]
    · rintro ⟨-, hlt⟩
      omega
  refine ⟨⟨?_, ?_⟩, ?_, ?_⟩
  · rintro ⟨e, he, hs⟩
    by_cases h2 : c.appSecret ≠ "" ∧ golen c.appSecret < 12
    · exact h2
    exfalso
    rw [defaultValues_eq, if_neg h1, if_neg h2] at he
    rcases hp : parseLogLevel c.logger.logLevel with _ | lvl <;> rw [hp] at he
    · injection he with he
      subst he
      rw [unknownLevelMsg_not_appSecret] at hs
      exact Bool.noConfusion hs
    · exact Except.noConfusion he
  · intro h2
    rw [defaultValues_eq, if_neg h1, if_pos h2]
    exact ⟨_, rfl, appSecretErrMsg_starts _⟩
  · intro h
    unfold checkAppSecret
    rw [if_pos h]
  · intro h
    omega

/-- Witness for the amended C5: a short non-empty `AppSecret` (behind a
valid `AppID`) produces the AppSecret validation error. -/
theorem defaultValues_appSecret_spec_witness :
    ∃ e, defaultValues uuidA uuidA { initialConfig with
        appID := "validappid12"
        appSecret := "x"
        logger := { logLevel := "DEBUG" } } = Except.error e ∧
      strStarts e "invalid AppSecret" = true :=
  ((defaultValues_appSecret_spec uuidA uuidA _ (by decide)).1).mpr (by decide)

/-! ## Claim C6 -/

theorem strContains_append_right (a b pat : String)
    (h : strContains b pat = true) : strContains (a ++ b) pat = true := by
  unfold strContains at h ⊢
  rw [sdata_append]
  exact isSub_append_left _ _ _ h

/-- Claim C6: requesting the stored service payload at the wrong type
returns the requested type's zero value together with an error message that
names both the requested and the stored dynamic type (the type assertion
never panics — the accessor is total); requesting it at the stored type
returns the payload unchanged with no error. -/
theorem getServiceConfig_spec (B : GoType) (s : ServiceVal) :
    (s.ty ≠ B →
      (GetServiceConfig B (some s)).1 = B.zero ∧
      ∃ msg, (GetServiceConfig B (some s)).2 = some msg ∧
        strContains msg B.typeName = true ∧
        strContains msg s.ty.typeName = true) ∧
    (∀ h : s.ty = B, GetServiceConfig B (some s) = (h ▸ s.val, none)) := by
  constructor
  · intro hne
    simp only [GetServiceConfig]
    rw [dif_neg hne]
    refine ⟨rfl, _, rfl, ?_, ?_⟩
    · rw [String.append_assoc ("invalid service config type: expected " ++ B.typeName)]
      exact strContains_middle _ _ _
    · exact strContains_suffix_pat _ _
  · intro h
    simp only [GetServiceConfig]
    rw [dif_pos h]

/-- Witness for C6: storing an `int` and requesting a `string` yields the
zero string and an error naming both types; requesting the stored type
succeeds. -/
theorem getServiceConfig_spec_witness :
    ((GetServiceConfig .goString (some ⟨.goInt, (5 : Int)⟩)).1 = GoType.zero .goString ∧
      ∃ msg, (GetServiceConfig .goString (some ⟨.goInt, (5 : Int)⟩)).2 = some msg ∧
        strContains msg (GoType.typeName .goString) = true ∧
        strContains msg (GoType.typeName .goInt) = true) ∧
    GetServiceConfig .goInt (some ⟨.goInt, (5 : Int)⟩) = ((5 : Int), none) :=
  ⟨(getServiceConfig_spec .goString ⟨.goInt, (5 : Int)⟩).1 (by decide),
    (getServiceConfig_spec .goInt ⟨.goInt, (5 : Int)⟩).2 rfl⟩

/-! ## Claim C7 -/

/-- Claim C7: when the underlying `AppSecret` is non-empty, the secure copy
carries the literal mask `"********"` in its place. -/
theorem getSecureCopy_masks (g : Config) (h : g.appSecret ≠ "") :
    (GetSecureCopy g).appSecret = "********" := by
  unfold GetSecureCopy
  rw [if_pos h]

/-- Witness for C7 on a concrete config with a non-empty secret. -/
theorem getSecureCopy_masks_witness :
    (sampleCfg "DEBUG").appSecret ≠ "" ∧
    (GetSecureCopy (sampleCfg "DEBUG")).appSecret = "********" :=
  ⟨by decide, getSecureCopy_masks (sampleCfg "DEBUG") (by decide)⟩

/-! ## Claim C10 -/

/-- Claim C10: `GetSecureCopy` leaves the singleton unmodified (the second
component of the state-passing view) and the returned copy agrees with the
singleton on every field other than `AppSecret`; when the secret is empty
no mask is applied and the copy's secret is empty as well. -/
theorem getSecureCopy_frame (g : Config) :
    (getSecureCopyOp g).2 = g ∧
    (GetSecureCopy g).configFile = g.configFile ∧
    (GetSecureCopy g).initFlag = g.initFlag ∧
    (GetSecureCopy g).appID = g.appID ∧
    (GetSecureCopy g).logger = g.logger ∧
    (GetSecureCopy g).service = g.service ∧
    (GetSecureCopy g).envPref = g.envPref ∧
    (g.appSecret = "" → (GetSecureCopy g).appSecret = "") := by
  unfold getSecureCopyOp GetSecureCopy
  by_cases h : g.appSecret = "" <;> simp [h]

/-- Witness for C10 on the freshly initialized singleton (whose secret is
empty, exercising the no-mask branch). -/
theorem getSecureCopy_frame_witness :
    initialConfig.appSecret = "" ∧
    (GetSecureCopy initialConfig).appSecret = "" ∧
    (getSecureCopyOp initialConfig).2 = initialConfig :=
  ⟨rfl, (getSecureCopy_frame initialConfig).2.2.2.2.2.2.2 rfl,
    (getSecureCopy_frame initialConfig).1⟩

/-! ## Claim C9 -/

theorem extErrMsg_contains (ext : String) :
    strContains ("unsupported config file extension: " ++ ext)
      "unsupported config file extension" = true := by
  apply strContains_of_starts
  apply strStarts_append_left
  decide

/-- Claim C9: the load path selects the parse format from the configured
file's extension and accepts exactly `json`, `yaml` and `yml`; for any
other extension `getConfigFile` fails with an error containing
`"unsupported config file extension"`, `readInConfig` fails with the very
same error for every file system and every parser (so before any file
content is read), and `InitServiceConfig` on an existing file with such an
extension surfaces an error containing the same text. -/
theorem getConfigFile_ext_spec {β : Type} (c : Config)
    (parse : String → β → Except String PersistedDoc) (fs : String → Option β)
    (serialize : PersistedDoc → β) (absFn : String → String)
    (uuids : Nat → String) (v : Option ServiceVal) (path : String)
    (w : World β) :
    (containsStr ["json", "yaml", "yml"] (extOf c.configFile) = true →
      getConfigFile c = Except.ok (c.configFile, extOf c.configFile)) ∧
    (containsStr ["json", "yaml", "yml"] (extOf c.configFile) = false →
      getConfigFile c =
          Except.error ("unsupported config file extension: " ++ extOf c.configFile) ∧
        readInConfig parse fs c =
          Except.error ("unsupported config file extension: " ++ extOf c.configFile) ∧
        strContains ("unsupported config file extension: " ++ extOf c.configFile)
          "unsupported config file extension" = true) ∧
    (containsStr ["json", "yaml", "yml"] (extOf (absFn path)) = false →
      (w.fs (absFn path)).isSome = true →
      ∃ e, InitServiceConfigOp parse serialize absFn uuids v path w = Except.error e ∧
        strContains e "unsupported config file extension" = true) := by
  refine ⟨?_, ?_, ?_⟩
  · intro h
    simp [getConfigFile, h]
  · intro h
    have hg : getConfigFile c =
        Except.error ("unsupported config file extension: " ++ extOf c.configFile) := by
      simp [getConfigFile, h]
    refine ⟨hg, ?_, extErrMsg_contains _⟩
    unfold readInConfig
    rw [hg]
  · intro hext hfs
    refine ⟨"reading config: " ++
      ("unsupported config file extension: " ++ extOf (absFn path)), ?_, ?_⟩
    · unfold InitServiceConfigOp
      simp only [hfs, if_true]
      have hg : getConfigFile
          { w.global with configFile := absFn path, service := v } =
          Except.error ("unsupported config file extension: " ++ extOf (absFn path)) := by
        simp [getConfigFile, hext]
      unfold readInConfig
      rw [hg]
    · exact strContains_append_right _ _ _ (extErrMsg_contains _)

/-- Witness for C9: accepted extension `yaml`, rejected extension `txt`,
and an `InitServiceConfig` run on an existing `.txt` file. -/
theorem getConfigFile_ext_spec_witness :
    (getConfigFile { initialConfig with configFile := "a/config.yaml" } =
      Except.ok ("a/config.yaml", extOf "a/config.yaml")) ∧
    (getConfigFile { initialConfig with configFile := "a/config.txt" } =
        Except.error ("unsupported config file extension: " ++ extOf "a/config.txt") ∧
      readInConfig (β := PersistedDoc) (fun _ d => Except.ok d) (fun _ => none)
          { initialConfig with configFile := "a/config.txt" } =
        Except.error ("unsupported config file extension: " ++ extOf "a/config.txt") ∧
      strContains ("unsupported config file extension: " ++ extOf "a/config.txt")
        "unsupported config file extension" = true) ∧
    (∃ e, InitServiceConfigOp (β := PersistedDoc) (fun _ d => Except.ok d)
        (fun d => d) (fun p => p) (fun _ => uuidA) none "config.txt"
        { global := initialConfig
          fs := fun p => if p = "config.txt" then some (marshalConfig initialConfig) else none
          slogLevel := SlogLevel.debug } = Except.error e ∧
      strContains e "unsupported config file extension" = true) :=
  ⟨(getConfigFile_ext_spec (β := PersistedDoc)
      { initialConfig with configFile := "a/config.yaml" } (fun _ d => Except.ok d)
      (fun _ => none) (fun d => d) (fun p => p) (fun _ => uuidA) none ""
      { global := initialConfig, fs := fun _ => none, slogLevel := SlogLevel.debug }).1
      (by decide),
    (getConfigFile_ext_spec (β := PersistedDoc)
      { initialConfig with configFile := "a/config.txt" } (fun _ d => Except.ok d)
      (fun _ => none) (fun d => d) (fun p => p) (fun _ => uuidA) none ""
      { global := initialConfig, fs := fun _ => none, slogLevel := SlogLevel.debug }).2.1
      (by decide),
    (getConfigFile_ext_spec (β := PersistedDoc)
      { initialConfig with configFile := "" } (fun _ d => Except.ok d)
      (fun _ => none) (fun d => d) (fun p => p) (fun _ => uuidA) none "config.txt"
      { global := initialConfig
        fs := fun p => if p = "config.txt" then some (marshalConfig initialConfig) else none
        slogLevel := SlogLevel.debug }).2.2
      (by decide) (by decide)⟩

/-! ## Claim C8 -/

theorem getConfigFile_ok (c : Config)
    (h : containsStr ["json", "yaml", "yml"] (extOf c.configFile) = true) :
    getConfigFile c = Except.ok (c.configFile, extOf c.configFile) := by
  simp [getConfigFile, h]

/-- Successful path of `readInConfig`: supported extension, readable file,
parsable content. -/
theorem readInConfig_ok {β : Type} (parse : String → β → Except String PersistedDoc)
    (fs : String → Option β) (c : Config) (content : β) (d : PersistedDoc)
    (hext : containsStr ["json", "yaml", "yml"] (extOf c.configFile) = true)
    (hfs : fs c.configFile = some content)
    (hparse : parse (extOf c.configFile) content = Except.ok d) :
    readInConfig parse fs c = Except.ok (unmarshalInto d c) := by
  unfold readInConfig
  rw [getConfigFile_ok c hext]
  dsimp only
  rw [hfs]
  dsimp only
  rw [hparse]

/-- The singleton state after a successful `DefaultConfig` run from the
freshly initialized state: `Init` set, service zeroed, both identifiers
freshly generated. -/
def postDefaultCfg (uuids : Nat → String) (zeroTy : GoType) : Config :=
  { initialConfig with
    initFlag := true
    service := some ⟨zeroTy, zeroTy.zero⟩
    appID := uuids 0
    appSecret := uuids 1 }

/-- Counterexample to C8 as stated: the round trip is not available for
every writable path. On `config.txt`, `DefaultConfig` happily writes the
file (the writer never checks the extension), but the subsequent
`InitServiceConfig` fails with an unsupported-extension error instead of
succeeding. -/
theorem defaultConfig_roundtrip_cex :
    ∃ w1 : World PersistedDoc,
      DefaultConfigOp (fun d => d) (fun p => p) (fun _ => uuidA) GoType.goInt
          "config.txt"
          { global := initialConfig, fs := fun _ => none,
            slogLevel := SlogLevel.debug } =
        Except.ok w1 ∧
      InitServiceConfigOp (fun _ d => Except.ok d) (fun d => d) (fun p => p)
          (fun _ => uuidA) none "config.txt" w1 =
        Except.error ("reading config: " ++
          ("unsupported config file extension: " ++ "txt")) := by
  refine ⟨_, rfl, rfl⟩

/-- Claim C8 (amended): for a path whose (resolved) extension is `yaml` or
`yml`, running `DefaultConfig` from the initial state and then
`InitServiceConfig` on the same path succeeds — assuming the parser for
that extension inverts the YAML serializer, and that `uuid.NewString`
yields canonical 36-byte strings — and leaves the singleton with non-empty
`AppID` and `AppSecret` and with the default log level `"DEBUG"`. (Paths
with other extensions are excluded: the default file is always written as
YAML, and unsupported extensions are rejected on reload, per the
counterexample.) -/
theorem defaultConfig_roundtrip {β : Type}
    (parse : String → β → Except String PersistedDoc)
    (serialize : PersistedDoc → β) (absFn : String → String)
    (uuids : Nat → String) (zeroTy : GoType) (v : Option ServiceVal)
    (path : String) (fs0 : String → Option β)
    (hext : extOf (absFn path) = "yaml" ∨ extOf (absFn path) = "yml")
    (hrt : ∀ d : PersistedDoc,
      parse (extOf (absFn path)) (serialize d) = Except.ok d)
    (hu : ∀ i, golen (uuids i) = 36) :
    ∃ w1 w2 : World β,
      DefaultConfigOp serialize absFn uuids zeroTy path
          { global := initialConfig, fs := fs0, slogLevel := SlogLevel.debug } =
        Except.ok w1 ∧
      InitServiceConfigOp parse serialize absFn uuids v path w1 =
        Except.ok w2 ∧
      w2.global.appID ≠ "" ∧ w2.global.appSecret ≠ "" ∧
      w2.global.logger.logLevel = "DEBUG" := by
  have h1 : DefaultConfigOp serialize absFn uuids zeroTy path
      { global := initialConfig, fs := fs0, slogLevel := SlogLevel.debug } =
      Except.ok
        { global := postDefaultCfg uuids zeroTy
          fs := writeToFile serialize absFn (postDefaultCfg uuids zeroTy) fs0 path
          slogLevel := SlogLevel.debug } := rfl
  have hext2 : containsStr ["json", "yaml", "yml"] (extOf (absFn path)) = true := by
    rcases hext with hy | hy <;> rw [hy] <;> rfl
  have hfs1 : writeToFile serialize absFn (postDefaultCfg uuids zeroTy) fs0 path
      (absFn path) = some (serialize (marshalConfig (postDefaultCfg uuids zeroTy))) := by
    unfold writeToFile
    rw [if_pos rfl]
  have hread : readInConfig parse
      (writeToFile serialize absFn (postDefaultCfg uuids zeroTy) fs0 path)
      { postDefaultCfg uuids zeroTy with configFile := absFn path, service := v } =
      Except.ok (unmarshalInto (marshalConfig (postDefaultCfg uuids zeroTy))
        { postDefaultCfg uuids zeroTy with configFile := absFn path, service := v }) :=
    readInConfig_ok parse _ _ _ _ hext2 hfs1 (hrt (marshalConfig (postDefaultCfg uuids zeroTy)))
  have hne0 : (unmarshalInto (marshalConfig (postDefaultCfg uuids zeroTy))
      { postDefaultCfg uuids zeroTy with configFile := absFn path, service := v }).appID
      ≠ "" := golen_36_ne_empty _ (hu 0)
  have hne1 : (unmarshalInto (marshalConfig (postDefaultCfg uuids zeroTy))
      { postDefaultCfg uuids zeroTy with configFile := absFn path, service := v }).appSecret
      ≠ "" := golen_36_ne_empty _ (hu 1)
  have hc1 : ¬((unmarshalInto (marshalConfig (postDefaultCfg uuids zeroTy))
      { postDefaultCfg uuids zeroTy with configFile := absFn path, service := v }).appID
      ≠ "" ∧ golen (unmarshalInto (marshalConfig (postDefaultCfg uuids zeroTy))
      { postDefaultCfg uuids zeroTy with configFile := absFn path, service := v }).appID < 8) := by
    rintro ⟨-, hlt⟩
    have h36 : golen (unmarshalInto (marshalConfig (postDefaultCfg uuids zeroTy))
      { postDefaultCfg uuids zeroTy with configFile := absFn path, service := v }).appID = 36 :=
      hu 0
    omega
  have hc2 : ¬((unmarshalInto (marshalConfig (postDefaultCfg uuids zeroTy))
      { postDefaultCfg uuids zeroTy with configFile := absFn path, service := v }).appSecret
      ≠ "" ∧ golen (unmarshalInto (marshalConfig (postDefaultCfg uuids zeroTy))
      { postDefaultCfg uuids zeroTy with configFile := absFn path, service := v }).appSecret < 12) := by
    rintro ⟨-, hlt⟩
    have h36 : golen (unmarshalInto (marshalConfig (postDefaultCfg uuids zeroTy))
      { postDefaultCfg uuids zeroTy with configFile := absFn path, service := v }).appSecret = 36 :=
      hu 1
    omega
  have hdv2 : defaultValues (uuids 2) (uuids 3)
      (unmarshalInto (marshalConfig (postDefaultCfg uuids zeroTy))
        { postDefaultCfg uuids zeroTy with configFile := absFn path, service := v }) =
      Except.ok (unmarshalInto (marshalConfig (postDefaultCfg uuids zeroTy))
        { postDefaultCfg uuids zeroTy with configFile := absFn path, service := v },
        SlogLevel.debug) := by
    rw [defaultValues_eq, if_neg hc1, if_neg hc2]
    rw [show parseLogLevel (unmarshalInto (marshalConfig (postDefaultCfg uuids zeroTy))
      { postDefaultCfg uuids zeroTy with configFile := absFn path, service := v }).logger.logLevel =
      some SlogLevel.debug from rfl]
    rw [if_neg (fun h => hne0 h), if_neg (fun h => hne1 h)]
  have h2 : InitServiceConfigOp parse serialize absFn uuids v path
      { global := postDefaultCfg uuids zeroTy
        fs := writeToFile serialize absFn (postDefaultCfg uuids zeroTy) fs0 path
        slogLevel := SlogLevel.debug } =
      Except.ok
        { global := unmarshalInto (marshalConfig (postDefaultCfg uuids zeroTy))
            { postDefaultCfg uuids zeroTy with configFile := absFn path, service := v }
          fs := writeToFile serialize absFn (postDefaultCfg uuids zeroTy) fs0 path
          slogLevel := SlogLevel.debug } := by
    unfold InitServiceConfigOp
    dsimp only
    rw [hfs1]
    simp only [Option.isSome_some, eq_self_iff_true, if_true]
    rw [hread]
    dsimp only
    rw [hdv2]
  exact ⟨_, _, h1, h2, hne0, hne1, rfl⟩

/-- Witness for the amended C8 with a concrete codec (documents as raw
content, the identity serializer and its trivial parser) on `config.yaml`. -/
theorem defaultConfig_roundtrip_witness :
    ∃ w1 w2 : World PersistedDoc,
      DefaultConfigOp (fun d => d) (fun p => p) (fun _ => uuidA) GoType.goInt
          "config.yaml"
          { global := initialConfig, fs := fun _ => none,
            slogLevel := SlogLevel.debug } =
        Except.ok w1 ∧
      InitServiceConfigOp (fun _ d => Except.ok d) (fun d => d) (fun p => p)
          (fun _ => uuidA) none "config.yaml" w1 =
        Except.ok w2 ∧
      w2.global.appID ≠ "" ∧ w2.global.appSecret ≠ "" ∧
      w2.global.logger.logLevel = "DEBUG" :=
  defaultConfig_roundtrip (fun _ d => Except.ok d) (fun d => d) (fun p => p)
    (fun _ => uuidA) GoType.goInt none "config.yaml" (fun _ => none)
    (Or.inl (by decide)) (fun d => rfl) (fun i => (by decide : golen uuidA = 36))
